import Mathlib

/-!
Shallow embedding of the `libattribute` crate (files `compile_error.rs`,
`model.rs`, `model_checker.rs`): a schema-driven validation-and-merge engine
for attribute trees.  The diagnostic sink (`ExtCtxt`) is modelled by making
every emitting operation return the list of diagnostics it raised, in
emission order.  Fallible operations (Rust `fail!` / `assert!`) return
`Option`.
-/

namespace RustAttribute

/-- Source-location token (`syntax::codemap::Span`): opaque, comparable. -/
abbrev Span := Nat

/-- `syntax::codemap::DUMMY_SP`. -/
def DUMMY_SP : Span := 0

/-- `syntax::codemap::Spanned<T>`: a node together with its span. -/
structure Spanned (T : Type) where
  node : T
  span : Span
deriving Repr

/-- Interned name identifier; value equality is all the code relies on. -/
abbrev InternedString := String

/-- One diagnostic accepted by the sink: `span_warn`, `span_err`, `span_note`. -/
inductive Diagnostic : Type where
  | warn (span : Span) (msg : String)
  | err (span : Span) (msg : String)
  | note (span : Span) (msg : String)
deriving Repr, DecidableEq

/-- `compile_error.rs`: severity levels. -/
inductive CompileErrorLevel : Type where
  | Silent
  | Warn
  | Error
deriving Repr, DecidableEq

/-- `CompileErrorLevel::issue`: emit nothing / a warning / an error. -/
def CompileErrorLevel.issue (level : CompileErrorLevel) (span : Span) (msg : String) :
    List Diagnostic :=
  match level with
  | .Silent => []
  | .Warn => [.warn span msg]
  | .Error => [.err span msg]

/-- `CompileErrorLevel::is_silent`. -/
def CompileErrorLevel.is_silent (level : CompileErrorLevel) : Bool :=
  match level with
  | .Silent => true
  | _ => false

/-- `CompileErrorLevel::is_error`. -/
def CompileErrorLevel.is_error (level : CompileErrorLevel) : Bool :=
  match level with
  | .Error => true
  | _ => false

/-- `compile_error.rs`: duplicate-report policy (severity + optional note). -/
structure DuplicateAttribute : Type where
  level : CompileErrorLevel
  extra_msg : Option String
deriving Repr, DecidableEq

/-- `DuplicateAttribute::new`. -/
def DuplicateAttribute.new (level : CompileErrorLevel) (extra_msg : Option String) :
    DuplicateAttribute :=
  ⟨level, extra_msg⟩

/-- `DuplicateAttribute::simple`. -/
def DuplicateAttribute.simple (level : CompileErrorLevel) : DuplicateAttribute :=
  DuplicateAttribute.new level none

/-- `DuplicateAttribute::error`. -/
def DuplicateAttribute.error (extra_msg : String) : DuplicateAttribute :=
  DuplicateAttribute.new .Error (some extra_msg)

/-- `DuplicateAttribute::issue(cx, span, previous_span)`: primary diagnostic at
`span`, then (when not silent) a note at `previous_span`; returns whether the
level is `Error`.  The emitted diagnostics are returned alongside. -/
def DuplicateAttribute.issue (d : DuplicateAttribute) (span : Span) (previous_span : Span) :
    List Diagnostic × Bool :=
  let extra_msg := d.extra_msg.getD ""
  let ds := d.level.issue span ("Duplicate attribute. " ++ extra_msg)
  let ds2 := if d.level.is_silent then ds
             else ds ++ [.note previous_span "Previous declaration here."]
  (ds2, d.level.is_error)

/-- `syntax::ast::StrStyle` (2014 vintage). -/
inductive StrStyle : Type where
  | CookedStr
  | RawStr (n : Nat)
deriving Repr, DecidableEq

/-- `syntax::ast::Sign`. -/
inductive Sign : Type where
  | Minus
  | Plus
deriving Repr, DecidableEq

/-- `syntax::ast::IntTy`. -/
inductive IntTy : Type where
  | TyI
  | TyI8
  | TyI16
  | TyI32
  | TyI64
deriving Repr, DecidableEq

/-- `syntax::ast::UintTy`. -/
inductive UintTy : Type where
  | TyU
  | TyU8
  | TyU16
  | TyU32
  | TyU64
deriving Repr, DecidableEq

/-- `syntax::ast::LitIntType`. -/
inductive LitIntType : Type where
  | SignedIntLit (ty : IntTy) (sign : Sign)
  | UnsignedIntLit (ty : UintTy)
  | UnsuffixedIntLit (sign : Sign)
deriving Repr, DecidableEq

/-- `syntax::ast::FloatTy`. -/
inductive FloatTy : Type where
  | TyF32
  | TyF64
deriving Repr, DecidableEq

/-- `syntax::ast::Lit_`: the raw literal payloads.  `u64` is modelled by `Nat`
(no arithmetic is performed on it), `Rc<Vec<u8>>` by `List Nat`, float
payloads keep their source-text representation as in the AST. -/
inductive Lit_ : Type where
  | LitStr (s : InternedString) (style : StrStyle)
  | LitBinary (bytes : List Nat)
  | LitByte (b : Nat)
  | LitChar (c : Char)
  | LitInt (val : Nat) (ty : LitIntType)
  | LitFloat (s : InternedString) (ty : FloatTy)
  | LitFloatUnsuffixed (s : InternedString)
  | LitNil
  | LitBool (b : Bool)
deriving Repr, DecidableEq

/-- `syntax::ast::Lit = Spanned<Lit_>`. -/
abbrev Lit := Spanned Lit_

/-- `model.rs`: the generic single-assignment-with-reporting slot. -/
structure AttributeValue (T : Type) : Type where
  value : Option T
  span : Span
  duplicate : DuplicateAttribute
deriving Repr

/-- `AttributeValue::new`. -/
def AttributeValue.new {T : Type} (duplicate : DuplicateAttribute) : AttributeValue T :=
  { value := none, duplicate := duplicate, span := DUMMY_SP }

/-- `AttributeValue::simple`. -/
def AttributeValue.simple {T : Type} : AttributeValue T :=
  AttributeValue.new (DuplicateAttribute.simple .Warn)

/-- `AttributeValue::update(self, cx, value, span)`: if the slot already holds
a value, call `self.duplicate.issue(cx, self.span, span)` (note the argument
order of the source: the slot's old span is passed as `issue`'s first span)
and keep the slot unchanged; otherwise store `value` and `span`. -/
def AttributeValue.update {T : Type} (self : AttributeValue T) (value : T) (span : Span) :
    AttributeValue T × List Diagnostic :=
  match self.value with
  | some _ =>
    let (ds, _) := self.duplicate.issue self.span span
    (self, ds)
  | none => ({ self with value := some value, span := span }, [])

/-- `AttributeValue::has_value`. -/
def AttributeValue.has_value {T : Type} (self : AttributeValue T) : Bool :=
  self.value.isSome

/-- `AttributeValue::value_or`. -/
def AttributeValue.value_or {T : Type} (self : AttributeValue T) (default : T) : T :=
  match self.value with
  | none => default
  | some value => value

/-- `model.rs`: the closed literal-variant union, each constructor wrapping a
slot typed to its payload. -/
inductive AttributeLitModel : Type where
  | MLitStr (v : AttributeValue (InternedString × StrStyle))
  | MLitBinary (v : AttributeValue (List Nat))
  | MLitByte (v : AttributeValue Nat)
  | MLitChar (v : AttributeValue Char)
  | MLitInt (v : AttributeValue (Nat × LitIntType))
  | MLitFloat (v : AttributeValue (InternedString × FloatTy))
  | MLitFloatUnsuffixed (v : AttributeValue InternedString)
  | MLitNil (v : AttributeValue Unit)
  | MLitBool (v : AttributeValue Bool)
deriving Repr

mutual

/-- `model.rs`: schema node — name, description, model variant. -/
inductive AttributeInfo : Type where
  | mk (name : InternedString) (desc : String) (model : AttributeModel)

/-- `model.rs`: model variant — no-value, key=literal, or nested sub-schema. -/
inductive AttributeModel : Type where
  | UnitValue (val : AttributeValue Unit)
  | KeyValue (lit : AttributeLitModel)
  | SubAttribute (sub : List AttributeInfo)

end

/-- `pub type AttributeArray = Vec<AttributeInfo>`. -/
abbrev AttributeArray := List AttributeInfo

/-- Field accessor `info.name`. -/
def AttributeInfo.name : AttributeInfo → InternedString
  | .mk n _ _ => n

/-- Field accessor `info.desc`. -/
def AttributeInfo.desc : AttributeInfo → String
  | .mk _ d _ => d

/-- Field accessor `info.model`. -/
def AttributeInfo.model : AttributeInfo → AttributeModel
  | .mk _ _ m => m

/-- `AttributeInfo::new`. -/
def AttributeInfo.new (name : InternedString) (desc : String) (model : AttributeModel) :
    AttributeInfo :=
  .mk name desc model

/-- `AttributeInfo::simple`. -/
def AttributeInfo.simple (name : InternedString) (desc : String) : AttributeInfo :=
  AttributeInfo.new name desc (.UnitValue AttributeValue.simple)

/-- `AttributeInfo::update`: replace the model variant. -/
def AttributeInfo.update (self : AttributeInfo) (model : AttributeModel) : AttributeInfo :=
  .mk self.name self.desc model

/-- `AttributeInfo::plain_value` (`fail!` on a non-`UnitValue` model becomes
`none`). -/
def AttributeInfo.plain_value (self : AttributeInfo) : Option (AttributeValue Unit) :=
  match self.model with
  | .UnitValue v => some v
  | _ => none

/-- `AttributeInfo::sub_model` (`fail!` becomes `none`). -/
def AttributeInfo.sub_model (self : AttributeInfo) : Option AttributeArray :=
  match self.model with
  | .SubAttribute array => some array
  | _ => none

/-- `AttributeInfo::key_value` (`fail!` becomes `none`). -/
def AttributeInfo.key_value (self : AttributeInfo) : Option AttributeLitModel :=
  match self.model with
  | .KeyValue lit => some lit
  | _ => none

namespace access

/-- `access::by_name`: first schema node with the given name; `fail!` when the
name is absent becomes `none`. -/
def by_name (array : AttributeArray) (name : InternedString) : Option AttributeInfo :=
  match array with
  | [] => none
  | info :: rest => if info.name = name then some info else by_name rest name

/-- `access::plain_value`. -/
def plain_value (array : AttributeArray) (name : InternedString) :
    Option (AttributeValue Unit) :=
  (by_name array name).bind AttributeInfo.plain_value

/-- `access::sub_model`. -/
def sub_model (array : AttributeArray) (name : InternedString) : Option AttributeArray :=
  (by_name array name).bind AttributeInfo.sub_model

/-- `access::lit_str`. -/
def lit_str (array : AttributeArray) (name : InternedString) :
    Option (AttributeValue (InternedString × StrStyle)) :=
  (by_name array name).bind fun info =>
    match info.key_value with
    | some (.MLitStr val) => some val
    | _ => none

/-- `access::plain_value_or`: `true` when the named no-value slot holds a
value, the supplied default otherwise; the panics of `plain_value` become
`none`. -/
def plain_value_or (array : AttributeArray) (name : InternedString) (def_ : Bool) :
    Option Bool :=
  (plain_value array name).map fun v => if v.has_value then true else def_

end access

/-- `model.rs`: the kind printer. -/
inductive LitTypePrinter : Type where
  | PLitStr
  | PLitBinary
  | PLitByte
  | PLitChar
  | PLitInt
  | PLitFloat
  | PLitFloatUnsuffixed
  | PLitNil
  | PLitBool
deriving Repr, DecidableEq

/-- `AttributeLitModel::to_lit_printer`. -/
def AttributeLitModel.to_lit_printer : AttributeLitModel → LitTypePrinter
  | .MLitStr _ => .PLitStr
  | .MLitBinary _ => .PLitBinary
  | .MLitByte _ => .PLitByte
  | .MLitChar _ => .PLitChar
  | .MLitInt _ => .PLitInt
  | .MLitFloat _ => .PLitFloat
  | .MLitFloatUnsuffixed _ => .PLitFloatUnsuffixed
  | .MLitNil _ => .PLitNil
  | .MLitBool _ => .PLitBool

/-- `lit_to_lit_printer`. -/
def lit_to_lit_printer : Lit_ → LitTypePrinter
  | .LitStr _ _ => .PLitStr
  | .LitBinary _ => .PLitBinary
  | .LitByte _ => .PLitByte
  | .LitChar _ => .PLitChar
  | .LitInt _ _ => .PLitInt
  | .LitFloat _ _ => .PLitFloat
  | .LitFloatUnsuffixed _ => .PLitFloatUnsuffixed
  | .LitNil => .PLitNil
  | .LitBool _ => .PLitBool

/-- `LitTypePrinter::type_to_str`. -/
def LitTypePrinter.type_to_str : LitTypePrinter → String
  | .PLitStr => "string"
  | .PLitBinary => "binary"
  | .PLitByte => "byte"
  | .PLitChar => "char"
  | .PLitInt => "int"
  | .PLitFloat => "float"
  | .PLitFloatUnsuffixed => "unsuffixed float"
  | .PLitNil => "nil"
  | .PLitBool => "boolean"

/-- `LitTypePrinter::type_example_to_str`. -/
def LitTypePrinter.type_example_to_str : LitTypePrinter → String
  | .PLitStr => "\"hello world\""
  | .PLitBinary => "0b01010101"
  | .PLitByte => "b\x279\x27"
  | .PLitChar => "\x27a\x27"
  | .PLitInt => "38"
  | .PLitFloat => "0.01f32"
  | .PLitFloatUnsuffixed => "0.1"
  | .PLitNil => "()"
  | .PLitBool => "true"

/-- `model.rs`: `AttributeMerger` — the `cx` sink is modelled by returning
diagnostics, so only the duplicate policy remains as state. -/
structure AttributeMerger : Type where
  duplicate : DuplicateAttribute

/-- `AttributeMerger::merge_value`: keep the only populated side; on two
populated sides, issue one duplicate report (with `a`'s span primary and
`b`'s span as the note span) and keep `a`. -/
def AttributeMerger.merge_value {T : Type} (m : AttributeMerger)
    (val val2 : AttributeValue T) : AttributeValue T × List Diagnostic :=
  match val.value, val2.value with
  | none, _ => (val2, [])
  | some _, none => (val, [])
  | some _, some _ =>
    let (ds, _) := m.duplicate.issue val.span val2.span
    (val, ds)

/-- `AttributeMerger::merge_lit`: merge the wrapped slots when the literal
kinds agree; the `fail!` on mismatched kinds becomes `none`. -/
def AttributeMerger.merge_lit (m : AttributeMerger)
    (lit lit2 : AttributeLitModel) : Option (AttributeLitModel × List Diagnostic) :=
  match lit, lit2 with
  | .MLitStr val, .MLitStr val2 =>
    let (v, ds) := m.merge_value val val2
    some (.MLitStr v, ds)
  | .MLitBinary val, .MLitBinary val2 =>
    let (v, ds) := m.merge_value val val2
    some (.MLitBinary v, ds)
  | .MLitByte val, .MLitByte val2 =>
    let (v, ds) := m.merge_value val val2
    some (.MLitByte v, ds)
  | .MLitChar val, .MLitChar val2 =>
    let (v, ds) := m.merge_value val val2
    some (.MLitChar v, ds)
  | .MLitInt val, .MLitInt val2 =>
    let (v, ds) := m.merge_value val val2
    some (.MLitInt v, ds)
  | .MLitFloat val, .MLitFloat val2 =>
    let (v, ds) := m.merge_value val val2
    some (.MLitFloat v, ds)
  | .MLitFloatUnsuffixed val, .MLitFloatUnsuffixed val2 =>
    let (v, ds) := m.merge_value val val2
    some (.MLitFloatUnsuffixed v, ds)
  | .MLitNil val, .MLitNil val2 =>
    let (v, ds) := m.merge_value val val2
    some (.MLitNil v, ds)
  | .MLitBool val, .MLitBool val2 =>
    let (v, ds) := m.merge_value val val2
    some (.MLitBool v, ds)
  | _, _ => none

mutual

/-- `AttributeMerger::merge`: requires equal names (`assert!` becomes the
`none` branch), dispatches on paired model variants, keeps `info`'s name and
description; the `fail!` on mismatched variants becomes `none`. -/
def AttributeMerger.merge (m : AttributeMerger) (info info2 : AttributeInfo) :
    Option (AttributeInfo × List Diagnostic) :=
  match info, info2 with
  | .mk name desc model, .mk name2 _desc2 model2 =>
    if name = name2 then
      match model, model2 with
      | .UnitValue val, .UnitValue val2 =>
        let (v, ds) := m.merge_value val val2
        some (.mk name desc (.UnitValue v), ds)
      | .KeyValue lit, .KeyValue lit2 =>
        match m.merge_lit lit lit2 with
        | some (l, ds) => some (.mk name desc (.KeyValue l), ds)
        | none => none
      | .SubAttribute sub, .SubAttribute sub2 =>
        match m.merge_sub_attr sub sub2 with
        | some (s, ds) => some (.mk name desc (.SubAttribute s), ds)
        | none => none
      | _, _ => none
    else none
termination_by (sizeOf info, 2)

/-- `AttributeMerger::merge_sub_attr`: `assert!` on unequal lengths becomes
the `none` branch; then merge position-wise (`zip`). -/
def AttributeMerger.merge_sub_attr (m : AttributeMerger)
    (sub1 sub2 : AttributeArray) : Option (AttributeArray × List Diagnostic) :=
  if sub1.length = sub2.length then AttributeMerger.merge_list m sub1 sub2 else none
termination_by (sizeOf sub1, 1)

/-- The `zip`/`map`/`collect` of `merge_sub_attr`, written as explicit
recursion: truncates at the shorter list (as `zip` does), sequences the
fallible merges, concatenates diagnostics in order. -/
def AttributeMerger.merge_list (m : AttributeMerger)
    (sub1 sub2 : AttributeArray) : Option (AttributeArray × List Diagnostic) :=
  match sub1, sub2 with
  | [], _ => some ([], [])
  | _ :: _, [] => some ([], [])
  | info :: rest, info2 :: rest2 =>
    match AttributeMerger.merge m info info2 with
    | none => none
    | some (i, ds) =>
      match AttributeMerger.merge_list m rest rest2 with
      | none => none
      | some (r, ds2) => some (i :: r, ds ++ ds2)
termination_by (sizeOf sub1, 0)

end

/-- `syntax::ast::MetaItem_`: a raw node is a bare word, a name with a nested
list, or a name with a literal payload. -/
inductive MetaItem_ : Type where
  | MetaWord (name : InternedString)
  | MetaList (name : InternedString) (items : List (Spanned MetaItem_))
  | MetaNameValue (name : InternedString) (lit : Lit)

/-- `syntax::ast::MetaItem = Spanned<MetaItem_>`. -/
abbrev MetaItem := Spanned MetaItem_

/-- `syntax::ast::Attribute_`: only the `value` field is read by this crate;
the unused `id`, `style` and doc-sugar fields are omitted. -/
structure Attribute_ : Type where
  value : MetaItem

/-- `syntax::ast::Attribute = Spanned<Attribute_>`. -/
abbrev Attribute := Spanned Attribute_

/-- `model_checker.rs`: `meta_item_name`. -/
def meta_item_name : MetaItem_ → InternedString
  | .MetaWord name => name
  | .MetaList name _ => name
  | .MetaNameValue name _ => name

/-- `model_checker.rs`: `unknown_attribute` — one error at the node's span. -/
def unknown_attribute (_meta_name : InternedString) (span : Span) : List Diagnostic :=
  [.err span "Unknown attribute."]

/-- `model_checker.rs`: `model_mismatch` — one error, model returned
unchanged. -/
def model_mismatch (model : AttributeModel) (mi : MetaItem) :
    AttributeModel × List Diagnostic :=
  (model, [.err mi.span "Model mismatch."])

/-- The `format!` string of `lit_mismatch`, as a function of both printers. -/
def lit_mismatch_msg (mp lp : LitTypePrinter) : String :=
  "Expected " ++ mp.type_to_str ++ " literal (e.g. `key = " ++
    mp.type_example_to_str ++ "`) but got " ++ lp.type_to_str ++
    " literal (e.g. `key = " ++ lp.type_example_to_str ++ "`)."

/-- `model_checker.rs`: `lit_mismatch` — one error at the literal's span whose
message names both kinds via the printers; the variant is returned
unchanged. -/
def lit_mismatch (mlit : AttributeLitModel) (lit : Lit) :
    AttributeLitModel × List Diagnostic :=
  (mlit, [.err lit.span
    (lit_mismatch_msg mlit.to_lit_printer (lit_to_lit_printer lit.node))])

/-- `model_checker.rs`: `match_value` — update the unit slot. -/
def match_value (value : AttributeValue Unit) (span : Span) :
    AttributeValue Unit × List Diagnostic :=
  value.update () span

/-- `model_checker.rs`: `match_lit` — dispatch on (declared variant, raw
kind); note the source has no `(MLitNil, LitNil)` arm, so that pair falls
into the catch-all `lit_mismatch`. -/
def match_lit (mlit : AttributeLitModel) (lit : Lit) :
    AttributeLitModel × List Diagnostic :=
  let sp := lit.span
  match mlit, lit.node with
  | .MLitStr value, .LitStr s style =>
    let (v, ds) := value.update (s, style) sp
    (.MLitStr v, ds)
  | .MLitBinary value, .LitBinary val =>
    let (v, ds) := value.update val sp
    (.MLitBinary v, ds)
  | .MLitByte value, .LitByte val =>
    let (v, ds) := value.update val sp
    (.MLitByte v, ds)
  | .MLitChar value, .LitChar val =>
    let (v, ds) := value.update val sp
    (.MLitChar v, ds)
  | .MLitInt value, .LitInt val ty =>
    let (v, ds) := value.update (val, ty) sp
    (.MLitInt v, ds)
  | .MLitFloat value, .LitFloat val ty =>
    let (v, ds) := value.update (val, ty) sp
    (.MLitFloat v, ds)
  | .MLitFloatUnsuffixed value, .LitFloatUnsuffixed val =>
    let (v, ds) := value.update val sp
    (.MLitFloatUnsuffixed v, ds)
  | .MLitBool value, .LitBool val =>
    let (v, ds) := value.update val sp
    (.MLitBool v, ds)
  | mlit, _ => lit_mismatch mlit lit

mutual

/-- `model_checker.rs`: `match_meta_item` — map `match_model` over the nodes
whose name matches (tracking whether any matched), then report an unknown
attribute if none did. -/
def match_meta_item (model : AttributeArray) (mi : MetaItem) :
    AttributeArray × List Diagnostic :=
  let meta_name := meta_item_name mi.node
  let (model2, attr_exists, ds) := match_infos model meta_name mi
  if attr_exists then (model2, ds)
  else (model2, ds ++ unknown_attribute meta_name mi.span)
termination_by (sizeOf mi, 3, 0)

/-- The `map` with the captured `attr_exists` flag inside `match_meta_item`:
every matching node is rewritten by `match_model`, every other node passes
through; the flag records whether any name matched. -/
def match_infos (model : AttributeArray) (meta_name : InternedString)
    (mi : MetaItem) : AttributeArray × Bool × List Diagnostic :=
  match model with
  | [] => ([], false, [])
  | info :: rest =>
    if info.name = meta_name then
      let (info2, ds) := match_model info mi
      let (rest2, _, ds2) := match_infos rest meta_name mi
      (info2 :: rest2, true, ds ++ ds2)
    else
      let (rest2, ex, ds2) := match_infos rest meta_name mi
      (info :: rest2, ex, ds2)
termination_by (sizeOf mi, 2, sizeOf model)

/-- `model_checker.rs`: `match_model` — dispatch on (declared model variant,
node shape); rebuilds the node with its (possibly updated) model. -/
def match_model (info : AttributeInfo) (mi : MetaItem) :
    AttributeInfo × List Diagnostic :=
  match info, mi with
  | .mk name desc model0, ⟨node, sp⟩ =>
    let (model, ds) :=
      match model0, node with
      | .UnitValue value, .MetaWord _ =>
        let (v, ds) := match_value value sp
        (.UnitValue v, ds)
      | .KeyValue mlit, .MetaNameValue _ lit =>
        let (l, ds) := match_lit mlit lit
        (.KeyValue l, ds)
      | .SubAttribute dict, .MetaList _ list =>
        let (d, ds) := match_sub_attributes dict list
        (.SubAttribute d, ds)
      | model, _ => model_mismatch model ⟨node, sp⟩
    (.mk name desc model, ds)
termination_by (sizeOf mi, 1, 0)

/-- `model_checker.rs`: `match_sub_attributes` — fold `match_meta_item` over
the nested list, left to right. -/
def match_sub_attributes (model : AttributeArray) (meta_items : List MetaItem) :
    AttributeArray × List Diagnostic :=
  match meta_items with
  | [] => (model, [])
  | mi :: rest =>
    let (model2, ds) := match_meta_item model mi
    let (model3, ds2) := match_sub_attributes model2 rest
    (model3, ds ++ ds2)
termination_by (sizeOf meta_items, 4, 0)

end

/-- `model_checker.rs`: `check` — process one attribute's meta item. -/
def check (model : AttributeArray) (attr : Attribute) :
    AttributeArray × List Diagnostic :=
  let meta_item := attr.node.value
  match_meta_item model meta_item

/-- `model_checker.rs`: `check_all` — fold `check` over the attributes in
input order, threading the schema through. -/
def check_all (model : AttributeArray) (attributes : List Attribute) :
    AttributeArray × List Diagnostic :=
  match attributes with
  | [] => (model, [])
  | attr :: rest =>
    let (model2, ds) := check model attr
    let (model3, ds2) := check_all model2 rest
    (model3, ds ++ ds2)

/-! Statement vocabulary: erasing slot contents exposes the declared shape
(names, descriptions, model-variant kinds, literal kinds, policies) of a
schema, so shape preservation is `eraseArray`-equality. -/

/-- Clear a slot's value and provenance, keeping its policy. -/
def AttributeValue.erase {T : Type} (v : AttributeValue T) : AttributeValue T :=
  { v with value := none, span := DUMMY_SP }

/-- Clear the wrapped slot of a literal variant, keeping the kind. -/
def AttributeLitModel.erase : AttributeLitModel → AttributeLitModel
  | .MLitStr v => .MLitStr v.erase
  | .MLitBinary v => .MLitBinary v.erase
  | .MLitByte v => .MLitByte v.erase
  | .MLitChar v => .MLitChar v.erase
  | .MLitInt v => .MLitInt v.erase
  | .MLitFloat v => .MLitFloat v.erase
  | .MLitFloatUnsuffixed v => .MLitFloatUnsuffixed v.erase
  | .MLitNil v => .MLitNil v.erase
  | .MLitBool v => .MLitBool v.erase

mutual

/-- Clear every slot of a schema node, keeping name/description/shape. -/
def AttributeInfo.erase : AttributeInfo → AttributeInfo
  | .mk n d m => .mk n d m.erase
termination_by info => sizeOf info

/-- Clear every slot of a model variant, keeping its kind. -/
def AttributeModel.erase : AttributeModel → AttributeModel
  | .UnitValue v => .UnitValue v.erase
  | .KeyValue l => .KeyValue l.erase
  | .SubAttribute sub => .SubAttribute (eraseArray sub)
termination_by m => sizeOf m

/-- Clear every slot of a schema, node by node. -/
def eraseArray : AttributeArray → AttributeArray
  | [] => []
  | i :: r => i.erase :: eraseArray r
termination_by l => sizeOf l

end

/-- Discriminator of the three model variants (no-value / key-literal /
sub-schema). -/
def AttributeModel.ctorIdx : AttributeModel → Nat
  | .UnitValue _ => 0
  | .KeyValue _ => 1
  | .SubAttribute _ => 2

/-! Concrete inputs used by the closed theorems and witnesses. -/

/-- An empty nil-kind slot under the default warn policy. -/
def nilSlot : AttributeLitModel :=
  .MLitNil (AttributeValue.new (DuplicateAttribute.simple .Warn))

/-- A one-node schema declaring `k` as a key=nil-literal attribute. -/
def nilSchema : AttributeArray :=
  [.mk "k" "a nil slot" (.KeyValue nilSlot)]

/-- The raw attribute `k = ()` at span 5. -/
def nilAttr : Attribute :=
  ⟨⟨⟨.MetaNameValue "k" ⟨.LitNil, 5⟩, 5⟩⟩, 5⟩

/-- A slot (of payload type `Nat`) already holding 42, recorded at span 3,
under the warn policy. -/
def filledSlot : AttributeValue Nat :=
  { value := some 42, span := 3, duplicate := DuplicateAttribute.simple .Warn }

/-- An empty int-kind slot under the default warn policy. -/
def intSlot : AttributeLitModel :=
  .MLitInt (AttributeValue.new (DuplicateAttribute.simple .Warn))

/-- The raw string literal `"hello"` at span 9. -/
def helloLit : Lit :=
  ⟨.LitStr "hello" .CookedStr, 9⟩

/-- A one-node schema declaring the no-value attribute `a`. -/
def unitSchema : AttributeArray :=
  [AttributeInfo.simple "a" "a flag"]

/-- The raw bare-word attribute `z` at span 9 (no such name declared). -/
def unknownAttr : Attribute :=
  ⟨⟨⟨.MetaWord "z", 9⟩⟩, 9⟩

/-- A merger under the warn policy. -/
def warnMerger : AttributeMerger :=
  ⟨DuplicateAttribute.simple .Warn⟩

/-- A populated no-value slot recorded at span 4. -/
def filledUnitSlot : AttributeValue Unit :=
  { value := some (), span := 4, duplicate := DuplicateAttribute.simple .Warn }

/-- A one-node schema whose no-value slot `f` is populated (at span 4). -/
def filledUnitSchema : AttributeArray :=
  [.mk "f" "a flag" (.UnitValue filledUnitSlot)]

/-! Theorems. -/

/-- `update` never changes a slot's erasure: it only writes value and span. -/
theorem erase_update {T : Type} (v : AttributeValue T) (x : T) (sp : Span) :
    ((v.update x sp).1).erase = v.erase := by
  cases hv : v.value <;>
    simp [AttributeValue.update, hv, AttributeValue.erase]

/-- `match_lit` never changes the literal variant's erasure. -/
theorem erase_match_lit (mlit : AttributeLitModel) (lit : Lit) :
    ((match_lit mlit lit).1).erase = mlit.erase := by
  obtain ⟨node, sp⟩ := lit
  cases mlit <;> cases node <;>
    simp [match_lit, lit_mismatch, AttributeLitModel.erase, erase_update]

/-- `eraseArray` preserves length. -/
theorem eraseArray_length (l : AttributeArray) : (eraseArray l).length = l.length := by
  induction l with
  | nil => simp [eraseArray]
  | cons i r ih => simp [eraseArray, ih]

mutual

/-- `match_meta_item` never changes the schema's erasure. -/
theorem erase_match_meta_item (model : AttributeArray) (mi : MetaItem) :
    eraseArray (match_meta_item model mi).1 = eraseArray model := by
  have h := erase_match_infos model (meta_item_name mi.node) mi
  rcases hmi : match_infos model (meta_item_name mi.node) mi with ⟨model2, ex, ds⟩
  rw [hmi] at h
  cases ex <;> simp [match_meta_item, hmi, h]
termination_by (sizeOf mi, 3, 0)

/-- The matching map inside `match_meta_item` never changes the erasure. -/
theorem erase_match_infos (model : AttributeArray) (meta_name : InternedString)
    (mi : MetaItem) : eraseArray (match_infos model meta_name mi).1 = eraseArray model := by
  match model with
  | [] => simp [match_infos]
  | info :: rest =>
    have hr := erase_match_infos rest meta_name mi
    by_cases hn : info.name = meta_name
    · have hm := erase_match_model info mi
      rcases h1 : match_model info mi with ⟨info2, ds⟩
      rw [h1] at hm
      rcases h2 : match_infos rest meta_name mi with ⟨rest2, ex, ds2⟩
      rw [h2] at hr
      simp [match_infos, hn, h1, h2, eraseArray, hm, hr]
    · rcases h2 : match_infos rest meta_name mi with ⟨rest2, ex, ds2⟩
      rw [h2] at hr
      simp [match_infos, hn, h2, eraseArray, hr]
termination_by (sizeOf mi, 2, sizeOf model)

/-- `match_model` never changes the node's erasure. -/
theorem erase_match_model (info : AttributeInfo) (mi : MetaItem) :
    ((match_model info mi).1).erase = info.erase := by
  obtain ⟨name, desc, model0⟩ := info
  obtain ⟨node, sp⟩ := mi
  cases model0 with
  | UnitValue v =>
    cases node with
    | MetaWord n =>
      simp [match_model, AttributeInfo.erase, AttributeModel.erase, match_value,
        erase_update]
    | MetaList n items => simp [match_model, model_mismatch, AttributeInfo.erase]
    | MetaNameValue n lit => simp [match_model, model_mismatch, AttributeInfo.erase]
  | KeyValue mlit =>
    cases node with
    | MetaWord n => simp [match_model, model_mismatch, AttributeInfo.erase]
    | MetaList n items => simp [match_model, model_mismatch, AttributeInfo.erase]
    | MetaNameValue n lit =>
      have h := erase_match_lit mlit lit
      simp [match_model, AttributeInfo.erase, AttributeModel.erase, h]
  | SubAttribute dict =>
    cases node with
    | MetaWord n => simp [match_model, model_mismatch, AttributeInfo.erase]
    | MetaList n items =>
      have h := erase_match_sub_attributes dict items
      simp [match_model, AttributeInfo.erase, AttributeModel.erase, h]
    | MetaNameValue n lit => simp [match_model, model_mismatch, AttributeInfo.erase]
termination_by (sizeOf mi, 1, 0)

/-- `match_sub_attributes` never changes the schema's erasure. -/
theorem erase_match_sub_attributes (model : AttributeArray) (meta_items : List MetaItem) :
    eraseArray (match_sub_attributes model meta_items).1 = eraseArray model := by
  match meta_items with
  | [] => simp [match_sub_attributes]
  | mi :: rest =>
    have h1 := erase_match_meta_item model mi
    rcases hm : match_meta_item model mi with ⟨model2, ds⟩
    rw [hm] at h1
    have h2 := erase_match_sub_attributes model2 rest
    rcases hs : match_sub_attributes model2 rest with ⟨model3, ds2⟩
    rw [hs] at h2
    simp [match_sub_attributes, hm, hs, h2, h1]
termination_by (sizeOf meta_items, 4, 0)

end

/-- C5: `check_all` returns a schema with the same number of nodes as its
input, and the same erasure — i.e. the same names, descriptions,
model-variant kinds (and literal kinds within key-literal) at every position,
in the same order; only slot values and spans may differ. -/
theorem check_all_preserves_shape (S : AttributeArray) (attrs : List Attribute) :
    (check_all S attrs).1.length = S.length ∧
    eraseArray (check_all S attrs).1 = eraseArray S := by
  have main : eraseArray (check_all S attrs).1 = eraseArray S := by
    induction attrs generalizing S with
    | nil => simp [check_all]
    | cons attr rest ih =>
      have h1 := erase_match_meta_item S attr.node.value
      rcases hm : match_meta_item S attr.node.value with ⟨S2, ds⟩
      rw [hm] at h1
      have h2 := ih S2
      rcases hc : check_all S2 rest with ⟨S3, ds2⟩
      rw [hc] at h2
      simp [check_all, check, hm, hc, h2, h1]
  refine ⟨?_, main⟩
  have := congrArg List.length main
  simpa [eraseArray_length] using this

/-- C2: when a slot already holds a value, `update` keeps the old value and
old span and reports a duplicate — but it passes the spans to
`DuplicateAttribute::issue` in the wrong order: the primary diagnostic lands
on the previous span (3) and the "Previous declaration here." note lands on
the new span (7), the opposite of what the spec states. -/
theorem update_swaps_note_span :
    filledSlot.update 99 7 =
      (filledSlot,
       [.warn 3 "Duplicate attribute. ", .note 7 "Previous declaration here."]) := rfl

/-- C3: `match_lit` is missing the `(MLitNil, LitNil)` arm, so a raw nil
literal offered to a declared nil slot falls into the kind-mismatch
catch-all: the slot stays empty and a self-contradictory "expected nil, got
nil" error is emitted, instead of delegating to `update`. -/
theorem match_lit_nil_bug :
    match_lit nilSlot ⟨.LitNil, 5⟩ =
      (nilSlot,
       [.err 5 "Expected nil literal (e.g. `key = ()`) but got nil literal (e.g. `key = ()`)."]) := rfl

/-- C1: a schema and node list satisfying all of the claim's hypotheses
(unique names, known name, shape and literal kind matching the declared
model, no repeated name) on which `check_all` nevertheless emits a diagnostic
and leaves the slot empty: the nil-literal node `k = ()` against the schema
declaring `k` as key=nil, due to the missing `(MLitNil, LitNil)` arm of
`match_lit`. -/
theorem check_all_nil_kind_bug :
    check_all nilSchema [nilAttr] =
      (nilSchema,
       [.err 5 "Expected nil literal (e.g. `key = ()`) but got nil literal (e.g. `key = ()`)."]) := by
  simp [check_all, check, match_meta_item, match_infos, match_model, match_lit,
    lit_mismatch, lit_mismatch_msg, nilSchema, nilAttr, nilSlot, meta_item_name,
    AttributeInfo.name, unknown_attribute, AttributeLitModel.to_lit_printer,
    lit_to_lit_printer, LitTypePrinter.type_to_str, LitTypePrinter.type_example_to_str]

/-- C9: `DuplicateAttribute::issue` emits nothing at Silent, one warning at
Warn, one error at Error; at any non-Silent level it adds exactly one
"Previous declaration here." note at the note span; and it returns `true`
exactly when the severity is Error. -/
theorem duplicate_issue_spec (d : DuplicateAttribute) (sp prev : Span) :
    (d.level = .Silent → d.issue sp prev = ([], false)) ∧
    (d.level = .Warn → d.issue sp prev =
      ([.warn sp ("Duplicate attribute. " ++ d.extra_msg.getD ""),
        .note prev "Previous declaration here."], false)) ∧
    (d.level = .Error → d.issue sp prev =
      ([.err sp ("Duplicate attribute. " ++ d.extra_msg.getD ""),
        .note prev "Previous declaration here."], true)) ∧
    ((d.issue sp prev).2 = true ↔ d.level = .Error) := by
  obtain ⟨lvl, extra⟩ := d
  cases lvl <;>
    simp [DuplicateAttribute.issue, CompileErrorLevel.issue,
      CompileErrorLevel.is_silent, CompileErrorLevel.is_error]

/-- C9 witness: the Warn case of `duplicate_issue_spec` at a concrete policy
and spans. -/
theorem duplicate_issue_spec_witness :
    (DuplicateAttribute.simple .Warn).issue 1 2 =
      ([.warn 1 "Duplicate attribute. ", .note 2 "Previous declaration here."], false) :=
  (duplicate_issue_spec (DuplicateAttribute.simple .Warn) 1 2).2.1 rfl

/-- C7: `merge_value` keeps the only populated side (value and span); when
both sides are populated it issues exactly one duplicate report, per the
merger's policy, and keeps `a`; when neither is populated the result is the
(empty) `b` slot; no other diagnostic is ever emitted. -/
theorem merge_value_spec (m : AttributeMerger) {T : Type} (val val2 : AttributeValue T) :
    (val.value = none → m.merge_value val val2 = (val2, [])) ∧
    (∀ x, val.value = some x → val2.value = none → m.merge_value val val2 = (val, [])) ∧
    (∀ x y, val.value = some x → val2.value = some y →
      m.merge_value val val2 = (val, (m.duplicate.issue val.span val2.span).1)) := by
  refine ⟨?_, ?_, ?_⟩
  · intro hv
    simp [AttributeMerger.merge_value, hv]
  · intro x hv hv2
    simp [AttributeMerger.merge_value, hv, hv2]
  · intro x y hv hv2
    simp [AttributeMerger.merge_value, hv, hv2]

/-- C7 witness: merging two populated slots at a concrete input — `a`'s value
is kept and one duplicate report (warning plus note) is emitted. -/
theorem merge_value_spec_witness :
    warnMerger.merge_value filledSlot filledSlot =
      (filledSlot,
       [.warn 3 "Duplicate attribute. ", .note 3 "Previous declaration here."]) :=
  (merge_value_spec warnMerger filledSlot filledSlot).2.2 42 42 rfl rfl

/-- C10: on a schema declaring `name` with a no-value model,
`plain_value_or` returns `true` exactly when the slot holds a value and the
supplied default when it is empty; only `Option.isSome` of the stored unit
value is consulted and the schema is left untouched (the accessor is pure). -/
theorem plain_value_or_spec (array : AttributeArray) (name : InternedString)
    (dflt : Bool) (info : AttributeInfo) (v : AttributeValue Unit)
    (h1 : access.by_name array name = some info) (h2 : info.model = .UnitValue v) :
    (v.value.isSome = true → access.plain_value_or array name dflt = some true) ∧
    (v.value = none → access.plain_value_or array name dflt = some dflt) := by
  constructor
  · intro hv
    simp [access.plain_value_or, access.plain_value, h1, AttributeInfo.plain_value,
      h2, AttributeValue.has_value, hv]
  · intro hv
    simp [access.plain_value_or, access.plain_value, h1, AttributeInfo.plain_value,
      h2, AttributeValue.has_value, hv]

/-- C10 witness: on the schema whose no-value slot `f` is populated,
`plain_value_or` with default `false` returns `true`. -/
theorem plain_value_or_spec_witness :
    access.plain_value_or filledUnitSchema "f" false = some true :=
  (plain_value_or_spec filledUnitSchema "f" false
    (.mk "f" "a flag" (.UnitValue filledUnitSlot)) filledUnitSlot rfl rfl).1 rfl

/-- C4: when the raw literal's kind differs from the declared kind,
`match_lit` returns the declared variant unchanged together with exactly one
error at the literal's span, whose message is built from both kind printers —
and that message decomposes around the declared kind's display name and
example and the found kind's display name and example. -/
theorem match_lit_kind_mismatch (mlit : AttributeLitModel) (lit : Lit)
    (h : mlit.to_lit_printer ≠ lit_to_lit_printer lit.node) :
    match_lit mlit lit =
      (mlit, [.err lit.span
        (lit_mismatch_msg mlit.to_lit_printer (lit_to_lit_printer lit.node))]) ∧
    ∃ s1 s2 s3 s4 s5 : String,
      lit_mismatch_msg mlit.to_lit_printer (lit_to_lit_printer lit.node) =
        s1 ++ mlit.to_lit_printer.type_to_str ++ s2 ++
          mlit.to_lit_printer.type_example_to_str ++ s3 ++
          (lit_to_lit_printer lit.node).type_to_str ++ s4 ++
          (lit_to_lit_printer lit.node).type_example_to_str ++ s5 := by
  constructor
  · obtain ⟨node, sp⟩ := lit
    cases mlit <;> cases node <;> first | rfl | exact absurd rfl h
  · exact ⟨"Expected ", " literal (e.g. `key = ", "`) but got ",
      " literal (e.g. `key = ", "`).",
      by simp [lit_mismatch_msg, String.append_assoc]⟩

/-- C4 witness: a declared int slot receiving the string literal `"hello"` —
the slot is unchanged and the single error names both kinds with their
canonical examples. -/
theorem match_lit_kind_mismatch_witness :
    match_lit intSlot helloLit =
      (intSlot, [.err 9 "Expected int literal (e.g. `key = 38`) but got string literal (e.g. `key = \"hello world\"`)."]) :=
  (match_lit_kind_mismatch intSlot helloLit (by decide)).1

/-- When no schema node's name matches, the map inside `match_meta_item`
returns the schema unchanged, the flag false and no diagnostics. -/
theorem match_infos_no_match (model : AttributeArray) (meta_name : InternedString)
    (mi : MetaItem) (h : ∀ info ∈ model, info.name ≠ meta_name) :
    match_infos model meta_name mi = (model, false, []) := by
  induction model with
  | nil => simp [match_infos]
  | cons info rest ih =>
    have hi : info.name ≠ meta_name := h info (by simp)
    have hr := ih (fun i hmem => h i (List.mem_cons_of_mem _ hmem))
    simp [match_infos, hi, hr]

/-- C6: a raw node whose name is declared by no schema node leaves the schema
unchanged and produces exactly one error, at the node's span. -/
theorem check_unknown (S : AttributeArray) (attr : Attribute)
    (h : ∀ info ∈ S, info.name ≠ meta_item_name attr.node.value.node) :
    check S attr = (S, [.err attr.node.value.span "Unknown attribute."]) := by
  have hni := match_infos_no_match S (meta_item_name attr.node.value.node)
    attr.node.value h
  simp [check, match_meta_item, hni, unknown_attribute]

/-- C6 witness: the bare word `z` against the schema declaring only `a`. -/
theorem check_unknown_witness :
    check unitSchema unknownAttr = (unitSchema, [.err 9 "Unknown attribute."]) :=
  check_unknown unitSchema unknownAttr (by decide)

/-- Pointwise description of `merge_list`: a successful result has the length
of the shorter input and its `i`-th node is the merge of the inputs'
`i`-th nodes. -/
theorem merge_list_pointwise (m : AttributeMerger) :
    ∀ (sub1 sub2 res : AttributeArray) (ds : List Diagnostic),
      AttributeMerger.merge_list m sub1 sub2 = some (res, ds) →
      res.length = min sub1.length sub2.length ∧
      ∀ (i : Nat) (h1 : i < sub1.length) (h2 : i < sub2.length) (h3 : i < res.length),
        ∃ d, m.merge (sub1.get ⟨i, h1⟩) (sub2.get ⟨i, h2⟩) = some (res.get ⟨i, h3⟩, d) := by
  intro sub1
  induction sub1 with
  | nil =>
    intro sub2 res ds hm
    simp [AttributeMerger.merge_list] at hm
    obtain ⟨h1, h2⟩ := hm
    subst h1
    simp
  | cons info rest ih =>
    intro sub2 res ds hm
    cases sub2 with
    | nil =>
      simp [AttributeMerger.merge_list] at hm
      obtain ⟨h1, h2⟩ := hm
      subst h1
      simp
    | cons info2 rest2 =>
      rcases hmer : m.merge info info2 with _ | ⟨i0, ds0⟩ <;>
        rcases hrest : AttributeMerger.merge_list m rest rest2 with _ | ⟨r0, ds20⟩ <;>
        simp [AttributeMerger.merge_list, hmer, hrest] at hm
      obtain ⟨hres, hds⟩ := hm
      subst hres
      obtain ⟨hlen, hpt⟩ := ih rest2 r0 ds20 hrest
      constructor
      · simp [hlen, Nat.succ_min_succ]
      · intro i h1 h2 h3
        cases i with
        | zero => exact ⟨ds0, by simpa using hmer⟩
        | succ j =>
          have h1j : j < rest.length := Nat.lt_of_succ_lt_succ h1
          have h2j : j < rest2.length := Nat.lt_of_succ_lt_succ h2
          have h3j : j < r0.length := Nat.lt_of_succ_lt_succ h3
          simpa using hpt j h1j h2j h3j

/-- C8: merging two sub-schema variants is position-wise: under the
equal-length precondition a successful merge pairs the `i`-th node of `a`
with the `i`-th node of `b`; unequal lengths, unequal names and unequal
model-variant kinds are fatal (`none`), not user diagnostics. -/
theorem merge_sub_attr_spec (m : AttributeMerger) (sub1 sub2 : AttributeArray) :
    (sub1.length ≠ sub2.length → m.merge_sub_attr sub1 sub2 = none) ∧
    (∀ res ds, m.merge_sub_attr sub1 sub2 = some (res, ds) →
      res.length = sub1.length ∧
      ∀ (i : Nat) (h1 : i < sub1.length) (h2 : i < sub2.length) (h3 : i < res.length),
        ∃ d, m.merge (sub1.get ⟨i, h1⟩) (sub2.get ⟨i, h2⟩) = some (res.get ⟨i, h3⟩, d)) ∧
    (∀ info info2 : AttributeInfo, info.name ≠ info2.name →
      m.merge info info2 = none) ∧
    (∀ info info2 : AttributeInfo, info.model.ctorIdx ≠ info2.model.ctorIdx →
      m.merge info info2 = none) := by
  refine ⟨?_, ?_, ?_, ?_⟩
  · intro hne
    simp [AttributeMerger.merge_sub_attr, hne]
  · intro res ds hsome
    by_cases hl : sub1.length = sub2.length
    · simp only [AttributeMerger.merge_sub_attr, hl, if_pos] at hsome
      obtain ⟨hlen, hpt⟩ := merge_list_pointwise m sub1 sub2 res ds hsome
      exact ⟨by simp [hlen, hl], hpt⟩
    · simp [AttributeMerger.merge_sub_attr, hl] at hsome
  · intro info info2 hname
    obtain ⟨n, d, mo⟩ := info
    obtain ⟨n2, d2, mo2⟩ := info2
    have hn : n ≠ n2 := by simpa [AttributeInfo.name] using hname
    simp [AttributeMerger.merge.eq_def, hn]
  · intro info info2 hctor
    obtain ⟨n, d, mo⟩ := info
    obtain ⟨n2, d2, mo2⟩ := info2
    cases mo <;> cases mo2 <;>
      first
        | exact absurd rfl hctor
        | simp [AttributeMerger.merge]

/-- C8 witness: merging nested schemas of unequal length is fatal. -/
theorem merge_sub_attr_spec_witness :
    warnMerger.merge_sub_attr [AttributeInfo.simple "a" "d"] [] = none :=
  (merge_sub_attr_spec warnMerger [AttributeInfo.simple "a" "d"] []).1 (by decide)

end RustAttribute
